import Mathlib

/-!
Verification development for the column-metadata reconciliation and script
generator (src/generate_scripts_from_excel.py and src/col_exception.py).

The Python code is shallowly embedded: dataframe rows become Lean structures
or association lists, pandas joins become explicit list computations, and
Python exceptions become `Except PyErr`.  Python string semantics that the
source relies on are modelled explicitly:

* `x in y` on strings is a substring test (`pyInStr`), so the guards
  `str(t) in ('bit')`, `str(t).upper() in ('VARCHAR(8000)')` and
  `str(t).upper() in ('FLOAT')` are substring checks against a single
  string, not tuple membership;
* `str(x)` of a missing (NaN) cell is the string "nan" (`pyStr`);
* an f-string renders `None` as the text "None" (`pyNumRepr`);
* `None > 8000` raises `TypeError`;
* `re.search(r"lit\s*(\d+)", s)` is the leftmost match of the literal,
  optional whitespace, then a maximal digit run (`reSearchNum`).
-/

/-- Python exception values that the embedded code can raise. -/
inductive PyErr where
  | typeError
  | indexError
  | nameError
  | keyError (field : String)
deriving Repr, DecidableEq

/-- `str(cell)` for a spreadsheet cell that may be missing: a missing cell is
pandas NaN and `str(nan) = "nan"`. -/
def pyStr (v : Option String) : String := v.getD "nan"

/-- Python `sub in whole` on strings: substring containment. -/
def pyInChars (sub whole : List Char) : Bool :=
  (List.range (whole.length + 1)).any (fun i => sub.isPrefixOf (whole.drop i))

/-- Python `sub in whole` lifted to `String`. -/
def pyInStr (sub whole : String) : Bool := pyInChars sub.data whole.data

/-- `s.upper()` (ASCII, which is all the source data uses). -/
def pyUpper (s : String) : String := ⟨s.data.map Char.toUpper⟩

/-- `s.lower()` (ASCII, which is all the source data uses). -/
def pyLower (s : String) : String := ⟨s.data.map Char.toLower⟩

/-- `s.strip()`: drop whitespace from both ends. -/
def pyStrip (s : String) : String :=
  ⟨((s.data.dropWhile Char.isWhitespace).reverse.dropWhile Char.isWhitespace).reverse⟩

/-- `cell in [x, ...]` for a raw (possibly NaN) cell against a list of string
literals; NaN compares unequal to every string. -/
def optMem (v : Option String) (l : List String) : Bool :=
  match v with
  | some s => l.contains s
  | none => false

/-- Render an optional integer the way an f-string renders it: digits for a
number, the text "None" for Python `None`. -/
def pyNumRepr : Option Nat → String
  | some n => toString n
  | none => "None"

/-- Numeric value of a run of decimal digits. -/
def digitsVal (ds : List Char) : Nat :=
  ds.foldl (fun a c => a * 10 + (c.toNat - 48)) 0

/-- Python regex whitespace class `\s` (ASCII part). -/
def isPySpace (c : Char) : Bool :=
  c = ' ' || c = '\t' || c = '\n' || c = '\r' || c = '\x0b' || c = '\x0c'

/-- Try to match `lit` then `\s*` then `\d+` at the head of `cs`, returning
the parsed number. -/
def matchNumAfter (lit : List Char) (cs : List Char) : Option Nat :=
  if lit.isPrefixOf cs then
    let rest := (cs.drop lit.length).dropWhile isPySpace
    let ds := rest.takeWhile Char.isDigit
    if ds.isEmpty then none else some (digitsVal ds)
  else none

/-- Scan left to right for the first position where `matchNumAfter`
succeeds, like `re.search`. -/
def reSearchNumAux (lit : List Char) : List Char → Option Nat
  | [] => none
  | c :: rest =>
    match matchNumAfter lit (c :: rest) with
    | some n => some n
    | none => reSearchNumAux lit rest

/-- `re.search(r"<lit>\s*(\d+)", s)` returning `int(match.group(1))`, or
`None` when the pattern does not occur. -/
def reSearchNum (lit s : String) : Option Nat := reSearchNumAux lit.data s.data

/-- One row of the merged source/target catalog as `extractDataType` reads
it: the "Attribute Type", "Parquet Data Type" and "Additional data" cells,
each possibly NaN. -/
structure ExcelRow where
  attributeType : Option String
  parquetDataType : Option String
  additionalData : Option String
deriving Repr, DecidableEq

/-- The type-mapper rule table `extractDataType` of
src/generate_scripts_from_excel.py, line for line.  The result is the
`(Derived Data Type, Size, Precision)` series; `Except` carries the
`TypeError` that the source raises when a "Multiline Text" row has no
"Max length" token (the comparison `size > 8000` with `size = None`). -/
def extractDataType (row : ExcelRow) : Except PyErr (String × Option Nat × Option Nat) :=
  let column_type := row.attributeType
  let parquet_column_data_type := row.parquetDataType
  let additional_data := pyStr row.additionalData
  if pyInStr (pyStr parquet_column_data_type) "bit" then
    .ok ("INTEGER", none, none)
  else if optMem column_type ["BigInt", "bigint"] then
    .ok ("BIGINT", none, none)
  else if pyInStr (pyUpper (pyStr parquet_column_data_type)) "VARCHAR(8000)" &&
      !(optMem column_type ["Uniqueidentifier", "DateTime", "Text", "Multiline Text"]) then
    .ok ("VARCHAR(100)", none, none)
  else if pyInStr (pyUpper (pyStr parquet_column_data_type)) "FLOAT" ||
      optMem column_type ["Double"] then
    .ok ("FLOAT", none, none)
  else if optMem column_type ["Choice", "State", "Status", "ManagedProperty", "Whole number"] then
    .ok ("INTEGER", none, none)
  else if column_type == some "Currency" then
    let precision := reSearchNum "Precision:" additional_data
    .ok ("DECIMAL(38," ++ pyNumRepr precision ++ ")", none, precision)
  else if optMem column_type ["Decimal"] then
    let precision := reSearchNum "Precision:" additional_data
    .ok ("DECIMAL(38," ++ pyNumRepr precision ++ ")", none, precision)
  else if optMem column_type ["Customer", "EntityName", "Lookup", "Owner", "Uniqueidentifier", "DateTime"] then
    .ok ("VARCHAR(50)", none, none)
  else if column_type == some "Multiline Text" then
    match reSearchNum "Max length:" additional_data with
    | none => .error .typeError
    | some n =>
      if n > 8000 then .ok ("VARCHAR(MAX)", some n, none)
      else if n != 0 then .ok ("NVARCHAR(" ++ toString n ++ ")", some n, none)
      else .ok ("VARCHAR(50)", some n, none)
  else if column_type == some "PartyList" then
    .ok ("VARCHAR(100)", none, none)
  else if column_type == some "Two Options" then
    .ok ("VARCHAR(5)", none, none)
  else if column_type == some "Text" then
    match reSearchNum "Max length:" additional_data with
    | some n =>
      if n != 0 then .ok ("NVARCHAR(" ++ toString n ++ ")", some n, none)
      else .ok ("NVARCHAR(50)", some n, none)
    | none => .ok ("NVARCHAR(50)", none, none)
  else if column_type == some "Virtual" then
    .ok ("VARCHAR(50)", none, none)
  else
    .ok ("VARCHAR(50)", none, none)

/-- One row of the target (parquet) catalog as col_exception.py reads it:
entity name, logical name, and the "Parquet Column Id" cell (possibly NaN). -/
structure PqExcRow where
  ent : String
  ln : String
  colId : Option String
deriving Repr, DecidableEq

/-- `colsInSFButNotInParquet` of src/col_exception.py: left-join the source
catalog to the target catalog on ("Entity Logical Name", "Logical Name"),
then report the rows whose "Parquet Column Id" is NaN.  The join is the
pandas default: exact, case-sensitive string equality on both keys. -/
def colsInSFButNotInParquet (sf : List (String × String)) (pq : List PqExcRow) :
    List (String × String) :=
  let merged := sf.flatMap (fun s =>
    let ms := pq.filter (fun p => p.ent == s.1 && p.ln == s.2)
    if ms.isEmpty then [(s.1, s.2, (none : Option String))]
    else ms.map (fun p => (s.1, s.2, p.colId)))
  (merged.filter (fun r => r.2.2 == none)).map (fun r => (r.1, r.2.1))

/-- One row of the source (Dynamics/SF) metadata sheet as writeScripts
reads it. -/
structure SrcRow where
  ent : String
  ln : String
  attr : Option String
  add : Option String
deriving Repr, DecidableEq

/-- One row of the target (parquet) metadata sheet as writeScripts reads
it: the projection df_parquet[["Entity Logical Name", "Logical Name",
"Parquet Data Type"]]. -/
structure PqMetaRow where
  ent : String
  ln : String
  pqType : Option String
deriving Repr, DecidableEq

/-- One row of the merged catalog produced at line 286 of
src/generate_scripts_from_excel.py. -/
structure MergedRow where
  ent : String
  ln : String
  attr : Option String
  add : Option String
  pqType : Option String
deriving Repr, DecidableEq

/-- The merge at line 286: `pd.merge(df, df_parquet[[...]],
on=["Entity Logical Name", "Logical Name"], how='right')`.  Every target
row is kept (with its matching source rows, or NaN source fields when no
source row has exactly the same entity and logical name); source rows
without a target match are dropped.  Key comparison is exact and
case-sensitive. -/
def mergeRight (src : List SrcRow) (pq : List PqMetaRow) : List MergedRow :=
  pq.flatMap (fun p =>
    let ms := src.filter (fun s => s.ent == p.ent && s.ln == p.ln)
    if ms.isEmpty then [⟨p.ent, p.ln, none, none, p.pqType⟩]
    else ms.map (fun s => ⟨p.ent, p.ln, s.attr, s.add, p.pqType⟩))

/-- A merged row annotated with the `extractDataType` result
("Derived Data Type", "Size", "Precision"). -/
abbrev AnnRow := MergedRow × (String × Option Nat × Option Nat)

/-- Generic monadic traversal of a row list: Python evaluates row by row
and the first raised exception propagates. -/
def pyTraverse {α β : Type} (f : α → Except PyErr β) : List α → Except PyErr (List β)
  | [] => .ok []
  | r :: rs =>
    match f r with
    | .error e => .error e
    | .ok a =>
      match pyTraverse f rs with
      | .error e => .error e
      | .ok l => .ok (a :: l)

/-- The `df.apply(extractDataType, axis=1)` step at line 289: annotate every
merged row with its derived type triple, propagating any raise. -/
def annotateRows (rows : List MergedRow) : Except PyErr (List AnnRow) :=
  pyTraverse (fun m => (extractDataType ⟨m.attr, m.pqType, m.add⟩).map (fun d => (m, d))) rows

/-- `defaultMetadataToExclusionList` of src/generate_scripts_from_excel.py:
the fixed list of logical names that duplicate default or parquet system
columns. -/
def defaultMetadataToExclusionList : List String :=
  ["StateCode", "StatusCode", "CreatedBy", "CreatedBy_EntityType", "CreatedOnBehalfBy",
   "CreatedOnBehalfBy_EntityType", "ModifiedBy", "ModifiedBy_EntityType", "ModifiedOnBehalfBy",
   "ModifiedOnBehalfBy_EntityType", "OrganizationId", "OrganizationId_EntityType",
   "CreatedByName", "CreatedByYomiName", "CreatedOn", "CreatedOnBehalfByName",
   "CreatedOnBehalfByYominame", "ModifiedByName", "ModifiedByYomiName", "ModifiedOn",
   "ModifiedOnBehalfByName", "ModifiedOnBehalfByYomiName", "EntityImage_Timestamp",
   "EntityImage_Url", "EntityImageid", "ImportSequenceNumber", "OverriddenCreatedOn",
   "id", "SinkCreatedOn", "SinkModifiedOn", "VersionNumber", "isDelete",
   "CreatedOnPartition", "UniqueDscId"]

/-- `col.split(' ', 1)[0]`: the text before the first space. -/
def pySplitFirstSpace (s : String) : String := ⟨s.data.takeWhile (fun c => c != ' ')⟩

/-- The per-entry normalisation at line 296:
`col.split(' ', 1)[0].lower().strip()`. -/
def exclusionTokens : List String :=
  defaultMetadataToExclusionList.map (fun col => pyStrip (pyLower (pySplitFirstSpace col)))

/-- The exclusion filter at line 296:
`df[~df["Logical Name"].str.lower().isin(...)]` applied to the annotated
merged catalog. -/
def exclusionFiltered (rows : List AnnRow) : List AnnRow :=
  rows.filter (fun r => !(exclusionTokens.contains (pyLower r.1.ln)))

/-- Helper state for `uniqueList`. -/
def uniqueAux (seen : List String) : List String → List String
  | [] => []
  | x :: xs => if seen.contains x then uniqueAux seen xs else x :: uniqueAux (x :: seen) xs

/-- `pandas.Series.unique()`: distinct values in first-occurrence order. -/
def uniqueList (l : List String) : List String := uniqueAux [] l

/-- `colsInDefaultButNotInParquet` of src/col_exception.py: for every
distinct entity of the target catalog, the case-folded default logical
names minus the case-folded target logical names of that entity, one
report row per entity per missing name.  (The Python `set` iteration
order is unspecified; the missing names are listed here in first-occurrence
order of the default catalog, which fixes one of the admissible orders.) -/
def colsInDefaultButNotInParquet (defaultNames : List String) (pq : List (String × String)) :
    List (String × String) :=
  (uniqueList (pq.map Prod.fst)).flatMap (fun table =>
    let pq_columns := (pq.filter (fun r => r.1 == table)).map (fun r => pyLower r.2)
    let def_columns := defaultNames.map pyLower
    let missing := (uniqueList def_columns).filter (fun c => !(pq_columns.contains c))
    missing.map (fun c => (table, c)))

/-- A dataframe row for the per-entity resolvers: an association list from
column name to cell value (`none` = NaN).  A missing association models a
column that is absent from the frame, which pandas answers with KeyError. -/
abbrev DfRow := List (String × Option String)

/-- `row[c]`: cell lookup, raising KeyError when the column is absent. -/
def rowGet (r : DfRow) (c : String) : Except PyErr (Option String) :=
  match r.find? (fun kv => kv.1 == c) with
  | some kv => .ok kv.2
  | none => .error (.keyError c)

/-- Row filtering `df[mask]` where evaluating the mask may raise. -/
def pyFilterRows (p : DfRow → Except PyErr Bool) : List DfRow → Except PyErr (List DfRow)
  | [] => .ok []
  | r :: rs =>
    match p r with
    | .error e => .error e
    | .ok b =>
      match pyFilterRows p rs with
      | .error e => .error e
      | .ok l => .ok (if b then r :: l else l)

/-- Text of a raised exception as it is interpolated into a log message. -/
def pyErrMsg : PyErr → String
  | .typeError => "TypeError"
  | .indexError => "IndexError"
  | .nameError => "NameError"
  | .keyError f => "KeyError: " ++ f

/-- The try-block body of `populateEntityColumnList`: select the rows of
one entity and render "logicalName derivedType" for each, raising KeyError
when an expected column is absent. -/
def populateEntityColumnListCore (df : List DfRow) (entityName : String) :
    Except PyErr (List String) :=
  match pyFilterRows (fun r => (rowGet r "Entity Logical Name").map (fun v => v == some entityName)) df with
  | .error e => .error e
  | .ok filtered_df =>
    pyTraverse (fun r =>
      match rowGet r "Logical Name" with
      | .error e => .error e
      | .ok ln =>
        match rowGet r "Derived Data Type" with
        | .error e => .error e
        | .ok dt => .ok (pyStr ln ++ " " ++ pyStr dt)) filtered_df

/-- `populateEntityColumnList` of src/generate_scripts_from_excel.py: the
body wrapped in try/except.  On an exception the source logs one message
carrying the entity name and falls off the end of the function, so the
caller receives None; nothing is re-raised.  The second component is the
list of emitted log messages. -/
def populateEntityColumnList (df : List DfRow) (entityName : String) :
    Option (List String) × List String :=
  match populateEntityColumnListCore df entityName with
  | .ok l => (some l, [])
  | .error e =>
    (none, ["Error in populateEntityColumnList for entity " ++ entityName ++ ": " ++ pyErrMsg e])

/-- Pandas merge keys: NaN never matches, two strings match exactly. -/
def optKeyEq (a b : Option String) : Bool :=
  match a, b with
  | some x, some y => x == y
  | _, _ => false

/-- The try-block body of `populateNonSynapseDefaultColumnList`: restrict
the target catalog to one entity, left-join the default-column registry to
it on "Logical Name" with an indicator, keep the rows matched on both
sides, and render "logicalName defaultType" for each. -/
def populateNonSynapseDefaultColumnListCore (dfDefault dfParquet : List DfRow)
    (entityName : String) : Except PyErr (List String) :=
  match pyFilterRows (fun r => (rowGet r "Entity Logical Name").map (fun v => v == some entityName)) dfParquet with
  | .error e => .error e
  | .ok filtered_df =>
    match pyTraverse (fun r => rowGet r "Logical Name") filtered_df with
    | .error e => .error e
    | .ok pqNames =>
      match pyTraverse (fun r =>
          match rowGet r "Logical Name" with
          | .error e => .error e
          | .ok ln =>
            match rowGet r "Default Data Type" with
            | .error e => .error e
            | .ok dt => .ok (ln, dt)) dfDefault with
      | .error e => .error e
      | .ok defPairs =>
        .ok ((defPairs.flatMap (fun p => (pqNames.filter (fun q => optKeyEq q p.1)).map (fun _ => p))).map
          (fun p => pyStr p.1 ++ " " ++ pyStr p.2))

/-- `populateNonSynapseDefaultColumnList` of
src/generate_scripts_from_excel.py: body wrapped in try/except; like
`populateEntityColumnList`, an exception is logged with the entity name
and None is returned, nothing is re-raised. -/
def populateNonSynapseDefaultColumnList (dfDefault dfParquet : List DfRow)
    (entityName : String) : Option (List String) × List String :=
  match populateNonSynapseDefaultColumnListCore dfDefault dfParquet entityName with
  | .ok l => (some l, [])
  | .error e =>
    (none, ["Error in populateNonSynapseDefaultColumnList for entity " ++ entityName ++ ": " ++ pyErrMsg e])

/-- View of an annotated merged row as the dataframe row that
`populateEntityColumnList` receives from writeScripts. -/
def annRowToDfRow (a : AnnRow) : DfRow :=
  [("Entity Logical Name", some a.1.ent), ("Logical Name", some a.1.ln),
   ("Attribute Type", a.1.attr), ("Additional data", a.1.add),
   ("Parquet Data Type", a.1.pqType), ("Derived Data Type", some a.2.1),
   ("Size", a.2.2.1.map toString), ("Precision", a.2.2.2.map toString)]

/-- The writeScripts pipeline up to line 289: drop "Virtual" source rows,
right-merge into the target catalog, annotate with derived types. -/
def writeScriptsDf (dfExcel : List SrcRow) (dfParquet : List PqMetaRow) :
    Except PyErr (List AnnRow) :=
  annotateRows (mergeRight (dfExcel.filter (fun s => !(s.attr == some "Virtual"))) dfParquet)

/-- The entity-specific tier of writeScripts: `populateEntityColumnList`
applied to the (already exclusion-filtered) merged catalog. -/
def entityColumnTier (rows : List AnnRow) (e : String) : Option (List String) × List String :=
  populateEntityColumnList (rows.map annRowToDfRow) e

/-- Python `column.split()[0]`: drop leading whitespace, take the first
whitespace-free run; `none` models the IndexError raised when the string
has no non-whitespace character (`"".split()` is `[]`). -/
def pySplitTok (s : String) : Option String :=
  let t := (s.data.dropWhile isPySpace).takeWhile (fun ch => !(isPySpace ch))
  if t.isEmpty then none else some ⟨t⟩

/-- Python `sep.join(parts)`. -/
def joinSep (sep : String) : List String → String
  | [] => ""
  | [x] => x
  | x :: y :: xs => x ++ sep ++ joinSep sep (y :: xs)

/-- The f-string of `createViewOnExternalTable`, with the two column lists
already joined from the first tokens of the column entries.  The text is
written here exactly as the source builds it (the leading newline comes
from the triple-quoted literal). -/
def viewQueryText (schemaName tableName : String) (allColumns : List String) : String :=
  "\nCREATE VIEW " ++ schemaName ++ "." ++ tableName ++ " \nAS\nSELECT \n\t\t" ++
    joinSep ",\n\t\t" allColumns ++ " \n  FROM \n    (\n        SELECT  " ++
    joinSep ",\n\t\t\t\t" allColumns ++
    ",\n\t\t\t\tROW_NUMBER() OVER (PARTITION BY Id ORDER BY versionnumber DESC) as _row_id\n          FROM " ++
    schemaName ++ ".[" ++ tableName ++ "_raw]\n    ) AS A\n WHERE A._row_id = 1\n   AND A.IsDelete IS NULL\n\nGO\n"

/-- `createViewOnExternalTable` of src/generate_scripts_from_excel.py.
`allColumns = [column.split()[0] for column in allColumnsList]` raises
IndexError on a whitespace-only entry; an empty `allColumns` takes the
else branch, which assigns `formattedAllColumnsInner` but the f-string
reads the never-assigned name `formattedAllColumnInner`, a NameError. -/
def createViewOnExternalTable (tableName : String) (allColumnsList : List String)
    (schemaName : String := "d365") : Except PyErr String :=
  match pyTraverse (fun column =>
      match pySplitTok column with
      | some tok => .ok tok
      | none => .error .indexError) allColumnsList with
  | .error e => .error e
  | .ok allColumns =>
    if allColumns.isEmpty then .error .nameError
    else .ok (viewQueryText schemaName tableName allColumns)

/-- Number of (possibly overlapping) occurrences of `pat` in `s`: one per
position where `pat` is a prefix of the remaining suffix. -/
def countOccs (pat : List Char) : List Char → Nat
  | [] => if pat.isPrefixOf [] then 1 else 0
  | c :: rest => (if pat.isPrefixOf (c :: rest) then 1 else 0) + countOccs pat rest

/-- No occurrence of `pat` straddles the boundary between `A` and `B`. -/
def noSpanAt (pat A B : List Char) : Prop :=
  ∀ q1 q2, pat = q1 ++ q2 → q1 ≠ [] → q2 ≠ [] → ¬(q1 <:+ A ∧ q2 <+: B)

/-- `pat` occurs somewhere in `s`. -/
def containsSeq (pat s : List Char) : Prop := ∃ a b, s = a ++ pat ++ b

/-- Decidable check that no nonempty proper prefix of `pat` is a suffix
of `A`: then no occurrence of `pat` can start inside `A` and continue past
its end, whatever text follows. -/
def spanFreeLeft (pat A : List Char) : Bool :=
  (List.range pat.length).all (fun i => i == 0 || !((pat.take i).isSuffixOf A))

/-- Decidable check that no nonempty proper suffix of `pat` starts with
the two characters `c1, c2`: then no occurrence of `pat` can end inside a
text beginning `c1 :: c2 :: ...`, whatever text precedes. -/
def spanFreeRight2 (pat : List Char) (c1 c2 : Char) : Bool :=
  (List.range pat.length).all (fun i =>
    i == 0 ||
    (match pat.drop i with
     | [] => true
     | [d] => !(d == c1)
     | d :: e :: _ => !(d == c1 && e == c2)))

/-- The full window-ranking clause of the rendered view. -/
def rankClause : String := "ROW_NUMBER() OVER (PARTITION BY Id ORDER BY versionnumber DESC)"

/-- Claim C1.  The claim says a "Multiline Text" row whose additional data
has no "Max length: N" token falls back to VARCHAR(50) and never raises.
The source instead leaves `size = None` and then evaluates `size > 8000`,
which raises `TypeError`; this theorem evaluates the mapper at such a row
and shows the raise. -/
theorem multilineText_missing_maxLength_raises :
    extractDataType ⟨some "Multiline Text", none, some "Business Recommendation"⟩ =
      .error .typeError := rfl

/-- Claim C2.  The claim says every row gets a well-defined derived type,
never a null-embedding value.  The source formats a missing precision with
an f-string, so a "Currency" row without a "Precision: N" token yields the
string "DECIMAL(38,None)", embedding Python None in the type text. -/
theorem currency_missing_precision_null_embedding :
    extractDataType ⟨some "Currency", none, some "Currency without a precision token"⟩ =
      .ok ("DECIMAL(38,None)", none, none) := rfl

/-- Claim C3, counterexample.  A "Currency" row whose additional data
contains the token "Precision: 4" is mapped to INTEGER, not DECIMAL(38,4),
when its target-catalog primitive type is the boolean marker "bit": the
first rule of the table fires before the Currency rule. -/
theorem currency_precision4_shadowed_by_bit :
    reSearchNum "Precision:" (pyStr (some "Precision: 4")) = some 4 ∧
    extractDataType ⟨some "Currency", some "bit", some "Precision: 4"⟩ =
      .ok ("INTEGER", none, none) := ⟨rfl, rfl⟩

/-- Claim C3, amended.  For a "Currency" row whose additional data parses to
precision 4 and whose target-catalog primitive type triggers none of the
three earlier target-type rules (not a substring of "bit", and its
uppercasing not a substring of "VARCHAR(8000)" or of "FLOAT"), the mapper
returns DECIMAL(38,4). -/
theorem currency_precision4_decimal (row : ExcelRow)
    (hattr : row.attributeType = some "Currency")
    (hprec : reSearchNum "Precision:" (pyStr row.additionalData) = some 4)
    (hbit : pyInStr (pyStr row.parquetDataType) "bit" = false)
    (hvc : pyInStr (pyUpper (pyStr row.parquetDataType)) "VARCHAR(8000)" = false)
    (hfl : pyInStr (pyUpper (pyStr row.parquetDataType)) "FLOAT" = false) :
    extractDataType row = .ok ("DECIMAL(38,4)", none, some 4) := by
  simp [extractDataType, hattr, hprec, hbit, hvc, hfl, optMem]
  rfl

/-- Witness for the amended claim C3 at a concrete row. -/
theorem currency_precision4_decimal_witness :
    extractDataType ⟨some "Currency", some "decimal", some "Currency format, Precision: 4"⟩ =
      .ok ("DECIMAL(38,4)", none, some 4) :=
  currency_precision4_decimal ⟨some "Currency", some "decimal", some "Currency format, Precision: 4"⟩
    rfl (by decide) (by decide) (by decide) (by decide)

/-- Claim C4, counterexample.  A "BigInt" row is not mapped to BIGINT for
every target-catalog primitive type: when that type is the boolean marker
"bit", the first rule fires and the row is mapped to INTEGER. -/
theorem bigint_shadowed_by_bit :
    extractDataType ⟨some "BigInt", some "bit", some "anything"⟩ =
      .ok ("INTEGER", none, none) := rfl

/-- Claim C4, amended.  For a "BigInt" row, and any additional data, the
mapper returns BIGINT provided the target-catalog primitive type is not a
substring of the boolean marker "bit" (the only rule that precedes the
BigInt rule). -/
theorem bigint_maps_to_bigint (row : ExcelRow)
    (hattr : row.attributeType = some "BigInt")
    (hbit : pyInStr (pyStr row.parquetDataType) "bit" = false) :
    extractDataType row = .ok ("BIGINT", none, none) := by
  simp [extractDataType, hattr, hbit, optMem]

/-- Witness for the amended claim C4 at a concrete row. -/
theorem bigint_maps_to_bigint_witness :
    extractDataType ⟨some "BigInt", some "int64", some "whatever data"⟩ =
      .ok ("BIGINT", none, none) :=
  bigint_maps_to_bigint ⟨some "BigInt", some "int64", some "whatever data"⟩ rfl (by decide)

/-- Membership in a successful traversal comes from a member of the input. -/
theorem pyTraverse_mem {α β : Type} (f : α → Except PyErr β) (l : List α) (l' : List β) (b : β)
    (h : pyTraverse f l = .ok l') (hb : b ∈ l') : ∃ a ∈ l, f a = .ok b := by
  induction l generalizing l' with
  | nil =>
    simp only [pyTraverse] at h
    cases h
    simp at hb
  | cons a as ih =>
    cases hfa : f a with
    | error e => rw [pyTraverse, hfa] at h; cases h
    | ok x =>
      cases hrec : pyTraverse f as with
      | error e => rw [pyTraverse, hfa, hrec] at h; cases h
      | ok xs =>
        rw [pyTraverse, hfa, hrec] at h
        cases h
        rcases List.mem_cons.mp hb with hbx | hbxs
        · exact ⟨a, List.mem_cons_self a as, by rw [hfa, hbx]⟩
        · rcases ih xs hrec hbxs with ⟨a', ha', hfa'⟩
          exact ⟨a', List.mem_cons_of_mem a ha', hfa'⟩

/-- An annotated row of a successful annotation step carries a merged row
of the input catalog. -/
theorem annotateRows_mem (l : List MergedRow) (l' : List AnnRow) (a : AnnRow)
    (h : annotateRows l = .ok l') (ha : a ∈ l') : a.1 ∈ l := by
  rcases pyTraverse_mem _ l l' a h ha with ⟨m, hm, hfm⟩
  cases hext : extractDataType ⟨m.attr, m.pqType, m.add⟩ with
  | error e => rw [hext] at hfm; cases hfm
  | ok d =>
    rw [hext] at hfm
    cases hfm
    exact hm

/-- Every row of the right-merged catalog takes its key pair from a target
catalog row. -/
theorem mergeRight_mem (src : List SrcRow) (pq : List PqMetaRow) (m : MergedRow)
    (hm : m ∈ mergeRight src pq) : ∃ p ∈ pq, m.ent = p.ent ∧ m.ln = p.ln := by
  rcases List.mem_flatMap.mp hm with ⟨p, hp, hmem⟩
  refine ⟨p, hp, ?_⟩
  by_cases hempty : (src.filter (fun s => s.ent == p.ent && s.ln == p.ln)).isEmpty
  · rw [if_pos hempty] at hmem
    rcases List.mem_singleton.mp hmem with rfl
    exact ⟨rfl, rfl⟩
  · rw [if_neg hempty] at hmem
    rcases List.mem_map.mp hmem with ⟨s, _, rfl⟩
    exact ⟨rfl, rfl⟩

/-- Reading the fixed columns of a converted annotated row. -/
theorem rowGet_ann_ent (a : AnnRow) :
    rowGet (annRowToDfRow a) "Entity Logical Name" = .ok (some a.1.ent) := rfl

/-- Reading the logical-name column of a converted annotated row. -/
theorem rowGet_ann_ln (a : AnnRow) :
    rowGet (annRowToDfRow a) "Logical Name" = .ok (some a.1.ln) := rfl

/-- Reading the derived-type column of a converted annotated row. -/
theorem rowGet_ann_dt (a : AnnRow) :
    rowGet (annRowToDfRow a) "Derived Data Type" = .ok (some a.2.1) := rfl

/-- The entity filter of `populateEntityColumnList` on rows coming from the
writeScripts pipeline never raises and keeps exactly the rows of the
requested entity. -/
theorem pyFilterRows_ann (l : List AnnRow) (e : String) :
    pyFilterRows (fun r => (rowGet r "Entity Logical Name").map (fun v => v == some e))
        (l.map annRowToDfRow) =
      .ok ((l.filter (fun a => a.1.ent == e)).map annRowToDfRow) := by
  induction l with
  | nil => rfl
  | cons a l ih =>
    simp only [List.map_cons, pyFilterRows, rowGet_ann_ent, ih, List.filter_cons]
    by_cases h : (a.1.ent == e) = true
    · simp [Except.map, Option.some_beq_some, h]
    · simp [Except.map, Option.some_beq_some, h]

/-- The rendering loop of `populateEntityColumnList` on rows coming from
the writeScripts pipeline never raises and renders
"logicalName derivedType" for every row. -/
theorem pyTraverse_ann (l : List AnnRow) :
    pyTraverse (fun r =>
      match rowGet r "Logical Name" with
      | .error e => .error e
      | .ok ln =>
        match rowGet r "Derived Data Type" with
        | .error e => .error e
        | .ok dt => .ok (pyStr ln ++ " " ++ pyStr dt)) (l.map annRowToDfRow) =
    .ok (l.map (fun a => a.1.ln ++ " " ++ a.2.1)) := by
  induction l with
  | nil => rfl
  | cons a l ih =>
    simp only [List.map_cons, pyTraverse, rowGet_ann_ln, rowGet_ann_dt, ih]
    rfl

/-- `populateEntityColumnList` on the writeScripts rows: the entity tier is
exactly the requested entity's rows rendered in catalog order. -/
theorem populateEntityColumnListCore_ann (l : List AnnRow) (e : String) :
    populateEntityColumnListCore (l.map annRowToDfRow) e =
      .ok ((l.filter (fun a => a.1.ent == e)).map (fun a => a.1.ln ++ " " ++ a.2.1)) := by
  unfold populateEntityColumnListCore
  rw [pyFilterRows_ann]
  exact pyTraverse_ann (l.filter (fun a => a.1.ent == e))

/-- Claim C5, counterexample.  The source-to-target joins are case
sensitive, not case insensitive.  A source row ("E1", "ColA") and a target
row ("E1", "cola") differ only in the case of the logical name, yet the
row is reported as present in source but not in target, and the merge at
line 286 keeps no source attributes for it (the merged row has NaN
attribute fields). -/
theorem case_insensitive_join_refuted :
    colsInSFButNotInParquet [("E1", "ColA")] [⟨"E1", "cola", some "PQ1"⟩] = [("E1", "ColA")] ∧
    mergeRight [⟨"E1", "ColA", some "Text", some "Max length: 20"⟩] [⟨"E1", "cola", some "string"⟩] =
      [⟨"E1", "cola", none, none, some "string"⟩] := ⟨rfl, rfl⟩

/-- Claim C5, amended.  The reconciliation joins compare both entity name
and logical name with exact, case-sensitive equality: a source row with no
exact-case target match is always reported as present-in-source-but-not-
in-target (even when a case-insensitive match exists), and every merged
row that retains source attributes comes from an exact-case source match. -/
theorem joins_are_case_sensitive
    (sf : List (String × String)) (pq : List PqExcRow)
    (src : List SrcRow) (pqm : List PqMetaRow) (s : String × String) (m : MergedRow)
    (hs : s ∈ sf) (hnomatch : ∀ p ∈ pq, ¬(p.ent = s.1 ∧ p.ln = s.2))
    (hm : m ∈ mergeRight src pqm) (hattr : m.attr ≠ none) :
    s ∈ colsInSFButNotInParquet sf pq ∧ ∃ t ∈ src, t.ent = m.ent ∧ t.ln = m.ln := by
  constructor
  · unfold colsInSFButNotInParquet
    apply List.mem_map.mpr
    refine ⟨(s.1, s.2, none), ?_, rfl⟩
    apply List.mem_filter.mpr
    refine ⟨?_, rfl⟩
    apply List.mem_flatMap.mpr
    refine ⟨s, hs, ?_⟩
    have hempty : (pq.filter (fun p => p.ent == s.1 && p.ln == s.2)) = [] := by
      apply List.filter_eq_nil_iff.mpr
      intro p hp
      have hne := hnomatch p hp
      simp only [Bool.and_eq_true, beq_iff_eq]
      intro hcontra
      exact hne hcontra
    simp [hempty]
  · rcases List.mem_flatMap.mp hm with ⟨p, hp, hmem⟩
    by_cases hempty : (src.filter (fun t => t.ent == p.ent && t.ln == p.ln)).isEmpty
    · rw [if_pos hempty] at hmem
      rcases List.mem_singleton.mp hmem with rfl
      exact absurd rfl hattr
    · rw [if_neg hempty] at hmem
      rcases List.mem_map.mp hmem with ⟨t, ht, rfl⟩
      have ht' := List.mem_filter.mp ht
      have hkeys := ht'.2
      simp only [Bool.and_eq_true, beq_iff_eq] at hkeys
      exact ⟨t, ht'.1, hkeys.1, hkeys.2⟩

/-- Witness for the amended claim C5 at concrete catalogs. -/
theorem joins_are_case_sensitive_witness :
    ("E2", "Name") ∈ colsInSFButNotInParquet [("E2", "Name")] [⟨"E2", "name", some "7"⟩] ∧
    ∃ t ∈ [(⟨"E2", "Phone", some "Text", none⟩ : SrcRow)],
      t.ent = (⟨"E2", "Phone", some "Text", none, some "string"⟩ : MergedRow).ent ∧
      t.ln = (⟨"E2", "Phone", some "Text", none, some "string"⟩ : MergedRow).ln :=
  joins_are_case_sensitive [("E2", "Name")] [⟨"E2", "name", some "7"⟩]
    [⟨"E2", "Phone", some "Text", none⟩] [⟨"E2", "Phone", some "string"⟩]
    ("E2", "Name") ⟨"E2", "Phone", some "Text", none, some "string"⟩
    (by decide) (by decide) (by decide) (by decide)

/-- Claim C6.  Exclusion-list filtering of the merged catalog is
idempotent, applying it twice yields the same entity-specific column tier
as applying it once, and it removes a row exactly when the lowercased
logical name equals the lowercased, stripped first space-delimited token
of some exclusion-list entry. -/
theorem exclusion_filter_case_insensitive_idempotent
    (rows : List AnnRow) (r : AnnRow) (e : String) :
    exclusionFiltered (exclusionFiltered rows) = exclusionFiltered rows ∧
    entityColumnTier (exclusionFiltered (exclusionFiltered rows)) e =
      entityColumnTier (exclusionFiltered rows) e ∧
    (r ∈ rows → (r ∉ exclusionFiltered rows ↔
      ∃ c ∈ defaultMetadataToExclusionList,
        pyLower r.1.ln = pyStrip (pyLower (pySplitFirstSpace c)))) := by
  have hidem : exclusionFiltered (exclusionFiltered rows) = exclusionFiltered rows := by
    unfold exclusionFiltered
    rw [List.filter_filter]
    simp
  refine ⟨hidem, by rw [hidem], ?_⟩
  intro hr
  have hmem : r ∈ exclusionFiltered rows ↔
      exclusionTokens.contains (pyLower r.1.ln) = false := by
    unfold exclusionFiltered
    rw [List.mem_filter]
    simp [hr]
  rw [hmem]
  constructor
  · intro h
    have hcontains : exclusionTokens.contains (pyLower r.1.ln) = true := by
      cases hb : exclusionTokens.contains (pyLower r.1.ln)
      · exact absurd hb h
      · rfl
    rcases List.contains_iff_exists_mem_beq.mp hcontains with ⟨tok, htok, hbeq⟩
    rcases List.mem_map.mp htok with ⟨c, hc, rfl⟩
    exact ⟨c, hc, eq_of_beq hbeq⟩
  · rintro ⟨c, hc, heq⟩ hkept
    have htok : pyStrip (pyLower (pySplitFirstSpace c)) ∈ exclusionTokens :=
      List.mem_map.mpr ⟨c, hc, rfl⟩
    have hcon : exclusionTokens.contains (pyLower r.1.ln) = true :=
      List.contains_iff_exists_mem_beq.mpr ⟨_, htok, by rw [heq]; exact beq_self_eq_true _⟩
    rw [hkept] at hcon
    cases hcon

/-- Claim C7.  For a target catalog whose rows all belong to one entity and
a default-column catalog with exactly two case-folded logical names absent
from that entity's target columns, the present-in-default-not-in-target
reconciliation reports exactly those two rows, each carrying the entity
name and one missing name. -/
theorem default_missing_two_columns_report
    (defaultNames : List String) (pq : List (String × String)) (e n1 n2 : String)
    (hent : uniqueList (pq.map Prod.fst) = [e])
    (hmiss : (uniqueList (defaultNames.map pyLower)).filter
        (fun c => !(((pq.filter (fun r => r.1 == e)).map (fun r => pyLower r.2)).contains c)) =
      [n1, n2]) :
    colsInDefaultButNotInParquet defaultNames pq = [(e, n1), (e, n2)] := by
  unfold colsInDefaultButNotInParquet
  rw [hent]
  simp only [List.flatMap_cons, List.flatMap_nil, List.append_nil]
  rw [hmiss]
  rfl

/-- Witness for claim C7 at a concrete pair of catalogs. -/
theorem default_missing_two_columns_report_witness :
    colsInDefaultButNotInParquet ["StateCode", "StatusCode", "name"]
        [("account", "Id"), ("account", "Name")] =
      [("account", "statecode"), ("account", "statuscode")] :=
  default_missing_two_columns_report ["StateCode", "StatusCode", "name"]
    [("account", "Id"), ("account", "Name")] "account" "statecode" "statuscode" rfl rfl

/-- Claim C9, counterexample.  An error raised while resolving the entity
tier (here: the catalog lacks the expected "Derived Data Type" column, so
the row access raises KeyError) is caught inside
`populateEntityColumnList`, logged with the entity name, and swallowed:
the function returns None to the caller instead of re-raising. -/
theorem entity_resolver_error_not_reraised :
    populateEntityColumnListCore
        [[("Entity Logical Name", some "account"), ("Logical Name", some "accountid")]]
        "account" =
      .error (.keyError "Derived Data Type") ∧
    populateEntityColumnList
        [[("Entity Logical Name", some "account"), ("Logical Name", some "accountid")]]
        "account" =
      (none,
       ["Error in populateEntityColumnList for entity account: KeyError: Derived Data Type"]) :=
  ⟨rfl, rfl⟩

/-- Claim C9, amended.  Every error raised while resolving one entity's
column tiers is logged with the entity's context, but then suppressed
rather than re-raised: both per-entity resolvers return None to the
caller together with the single entity-tagged log message. -/
theorem entity_resolver_logs_and_returns_none
    (dfE dfD dfP : List DfRow) (e : String) (ex1 ex2 : PyErr)
    (h1 : populateEntityColumnListCore dfE e = .error ex1)
    (h2 : populateNonSynapseDefaultColumnListCore dfD dfP e = .error ex2) :
    populateEntityColumnList dfE e =
      (none, ["Error in populateEntityColumnList for entity " ++ e ++ ": " ++ pyErrMsg ex1]) ∧
    populateNonSynapseDefaultColumnList dfD dfP e =
      (none,
       ["Error in populateNonSynapseDefaultColumnList for entity " ++ e ++ ": " ++ pyErrMsg ex2]) := by
  unfold populateEntityColumnList populateNonSynapseDefaultColumnList
  rw [h1, h2]
  exact ⟨rfl, rfl⟩

/-- Witness for the amended claim C9: concrete frames that are missing the
"Entity Logical Name" column, so both resolvers raise internally, log with
the entity name, and return None. -/
theorem entity_resolver_logs_and_returns_none_witness :
    populateEntityColumnList [[("Logical Name", some "x")]] "contact" =
      (none,
       ["Error in populateEntityColumnList for entity contact: KeyError: Entity Logical Name"]) ∧
    populateNonSynapseDefaultColumnList [] [[("Logical Name", some "y")]] "contact" =
      (none,
       ["Error in populateNonSynapseDefaultColumnList for entity contact: KeyError: Entity Logical Name"]) :=
  entity_resolver_logs_and_returns_none [[("Logical Name", some "x")]] []
    [[("Logical Name", some "y")]] "contact"
    (.keyError "Entity Logical Name") (.keyError "Entity Logical Name") rfl rfl

/-- Claim C10.  Every column emitted in the entity-specific tier names,
with exact case, a logical name present in the target (parquet) catalog
for that entity: the right-merge at line 286 takes every key pair from the
target catalog, so a column present only in the source catalog never
reaches the generated scripts. -/
theorem entity_tier_subset_of_parquet
    (dfExcel : List SrcRow) (dfParquet : List PqMetaRow) (e : String)
    (rows : List AnnRow) (tier : List String) (s : String)
    (hdf : writeScriptsDf dfExcel dfParquet = .ok rows)
    (htier : entityColumnTier (exclusionFiltered rows) e = (some tier, []))
    (hs : s ∈ tier) :
    ∃ p ∈ dfParquet, p.ent = e ∧ ∃ rest, s = p.ln ++ " " ++ rest := by
  unfold entityColumnTier populateEntityColumnList at htier
  rw [populateEntityColumnListCore_ann] at htier
  have htier' : ((exclusionFiltered rows).filter (fun a => a.1.ent == e)).map
      (fun a => a.1.ln ++ " " ++ a.2.1) = tier := by
    have hfst := congrArg Prod.fst htier
    simpa using hfst
  rw [← htier'] at hs
  rcases List.mem_map.mp hs with ⟨a, haf, hrender⟩
  rcases List.mem_filter.mp haf with ⟨hafil, hae⟩
  unfold exclusionFiltered at hafil
  have harows : a ∈ rows := (List.mem_filter.mp hafil).1
  have hent : a.1.ent = e := eq_of_beq hae
  unfold writeScriptsDf at hdf
  have hmerged : a.1 ∈ mergeRight (dfExcel.filter (fun t => !(t.attr == some "Virtual"))) dfParquet :=
    annotateRows_mem _ rows a hdf harows
  rcases mergeRight_mem _ _ _ hmerged with ⟨p, hp, hpe, hpl⟩
  refine ⟨p, hp, ?_, a.2.1, ?_⟩
  · rw [← hpe]
    exact hent
  · rw [← hrender, hpl]

/-- Witness for claim C10 at a one-row source and target catalog. -/
theorem entity_tier_subset_of_parquet_witness :
    ∃ p ∈ [(⟨"account", "name", some "string"⟩ : PqMetaRow)], p.ent = "account" ∧
      ∃ rest, "name NVARCHAR(100)" = p.ln ++ " " ++ rest :=
  entity_tier_subset_of_parquet
    [⟨"account", "name", some "Text", some "Max length: 100"⟩]
    [⟨"account", "name", some "string"⟩] "account"
    [⟨⟨"account", "name", some "Text", some "Max length: 100", some "string"⟩,
      ("NVARCHAR(100)", some 100, none)⟩]
    ["name NVARCHAR(100)"] "name NVARCHAR(100)"
    rfl rfl (by decide)

/-- Witness for claim C6 at a concrete annotated catalog: the row named
STATECODE is removed (its lowercasing matches the StateCode entry) and the
filter is idempotent. -/
theorem exclusion_filter_case_insensitive_idempotent_witness :
    (exclusionFiltered (exclusionFiltered
        [⟨⟨"account", "STATECODE", some "Status", none, some "string"⟩, ("INTEGER", none, none)⟩,
         ⟨⟨"account", "name", some "Text", none, some "string"⟩, ("NVARCHAR(50)", none, none)⟩]) =
      exclusionFiltered
        [⟨⟨"account", "STATECODE", some "Status", none, some "string"⟩, ("INTEGER", none, none)⟩,
         ⟨⟨"account", "name", some "Text", none, some "string"⟩, ("NVARCHAR(50)", none, none)⟩]) ∧
    entityColumnTier (exclusionFiltered (exclusionFiltered
        [⟨⟨"account", "STATECODE", some "Status", none, some "string"⟩, ("INTEGER", none, none)⟩,
         ⟨⟨"account", "name", some "Text", none, some "string"⟩, ("NVARCHAR(50)", none, none)⟩])) "account" =
      entityColumnTier (exclusionFiltered
        [⟨⟨"account", "STATECODE", some "Status", none, some "string"⟩, ("INTEGER", none, none)⟩,
         ⟨⟨"account", "name", some "Text", none, some "string"⟩, ("NVARCHAR(50)", none, none)⟩]) "account" ∧
    ((⟨⟨"account", "STATECODE", some "Status", none, some "string"⟩, ("INTEGER", none, none)⟩ : AnnRow) ∉
        exclusionFiltered
          [⟨⟨"account", "STATECODE", some "Status", none, some "string"⟩, ("INTEGER", none, none)⟩,
           ⟨⟨"account", "name", some "Text", none, some "string"⟩, ("NVARCHAR(50)", none, none)⟩] ↔
      ∃ c ∈ defaultMetadataToExclusionList,
        pyLower (⟨⟨"account", "STATECODE", some "Status", none, some "string"⟩,
          ("INTEGER", none, none)⟩ : AnnRow).1.ln = pyStrip (pyLower (pySplitFirstSpace c))) := by
  have h := exclusion_filter_case_insensitive_idempotent
    [⟨⟨"account", "STATECODE", some "Status", none, some "string"⟩, ("INTEGER", none, none)⟩,
     ⟨⟨"account", "name", some "Text", none, some "string"⟩, ("NVARCHAR(50)", none, none)⟩]
    ⟨⟨"account", "STATECODE", some "Status", none, some "string"⟩, ("INTEGER", none, none)⟩
    "account"
  exact ⟨h.1, h.2.1, h.2.2 (List.mem_cons_self _ _)⟩

/-- A nonempty pattern never occurs in the empty text. -/
theorem countOccs_nil (pat : List Char) (hpat : pat ≠ []) : countOccs pat [] = 0 := by
  cases pat with
  | nil => exact absurd rfl hpat
  | cons c cs => simp [countOccs, List.isPrefixOf]

/-- Being a prefix survives extending the text on the right. -/
theorem isPrefixOf_append_right (pat l y : List Char) (h : pat.isPrefixOf l = true) :
    pat.isPrefixOf (l ++ y) = true :=
  List.isPrefixOf_iff_prefix.mpr ((List.isPrefixOf_iff_prefix.mp h).trans (List.prefix_append l y))

/-- Occurrence counting is monotone under extending the text on the right. -/
theorem countOccs_le_append_right (pat m y : List Char) (hpat : pat ≠ []) :
    countOccs pat m ≤ countOccs pat (m ++ y) := by
  induction m with
  | nil => rw [countOccs_nil pat hpat]; exact Nat.zero_le _
  | cons c m ih =>
    rw [List.cons_append]
    simp only [countOccs]
    have hind : (if pat.isPrefixOf (c :: m) then 1 else 0) ≤
        (if pat.isPrefixOf (c :: (m ++ y)) then 1 else 0) := by
      by_cases h : pat.isPrefixOf (c :: m) = true
      · have h2 : pat.isPrefixOf ((c :: m) ++ y) = true := isPrefixOf_append_right _ _ _ h
        rw [List.cons_append] at h2
        simp [h, h2]
      · simp [h]
    exact Nat.add_le_add hind ih

/-- Occurrence counting is monotone under extending the text on the left. -/
theorem countOccs_le_append_left (pat x m : List Char) (hpat : pat ≠ []) :
    countOccs pat m ≤ countOccs pat (x ++ m) := by
  induction x with
  | nil => exact Nat.le_refl _
  | cons a x ih =>
    rw [List.cons_append]
    simp only [countOccs]
    exact le_trans ih (Nat.le_add_left _ _)

/-- A text that contains the pattern has at least one occurrence. -/
theorem countOccs_pos_of_containsSeq (pat s : List Char) (hpat : pat ≠ [])
    (h : containsSeq pat s) : 1 ≤ countOccs pat s := by
  rcases h with ⟨a, b, rfl⟩
  rw [List.append_assoc]
  have h1 : 1 ≤ countOccs pat (pat ++ b) := by
    cases pat with
    | nil => exact absurd rfl hpat
    | cons c cs =>
      rw [List.cons_append]
      simp only [countOccs]
      have hp : (c :: cs).isPrefixOf (c :: (cs ++ b)) = true := by
        apply List.isPrefixOf_iff_prefix.mpr
        rw [← List.cons_append]
        exact List.prefix_append _ _
      simp [hp]
  exact le_trans h1 (countOccs_le_append_left pat a (pat ++ b) hpat)

/-- A longer pattern extending `p` occurs at most as often as `p`. -/
theorem countOccs_le_of_patPrefix (p q s : List Char) (hpq : p <+: q) (hp : p ≠ []) :
    countOccs q s ≤ countOccs p s := by
  induction s with
  | nil =>
    have hq : q ≠ [] := by
      intro h
      subst h
      exact hp (List.prefix_nil.mp hpq)
    rw [countOccs_nil p hp, countOccs_nil q hq]
  | cons c rest ih =>
    simp only [countOccs]
    have hind : (if q.isPrefixOf (c :: rest) then 1 else 0) ≤
        (if p.isPrefixOf (c :: rest) then 1 else 0) := by
      by_cases h : q.isPrefixOf (c :: rest) = true
      · have hpref : p.isPrefixOf (c :: rest) = true :=
          List.isPrefixOf_iff_prefix.mpr (hpq.trans (List.isPrefixOf_iff_prefix.mp h))
        simp [h, hpref]
      · simp [h]
    exact Nat.add_le_add hind ih

/-- The value reported by `getLast?` is a member of the list. -/
theorem mem_of_getLastQ {a : Char} : ∀ {l : List Char}, l.getLast? = some a → a ∈ l
  | [], h => by cases h
  | [x], h => by
    have hx : x = a := by
      have : some x = some a := h
      exact Option.some.inj this
    rw [hx]
    exact List.mem_singleton_self a
  | x :: y :: t, h => by
    rw [List.getLast?_cons_cons] at h
    exact List.mem_cons_of_mem x (mem_of_getLastQ h)

/-- No occurrence can straddle a boundary whose right side starts with a
character that is not in the pattern. -/
theorem noSpanAt_of_head (pat A B : List Char) (c : Char)
    (hB : B.head? = some c) (hc : c ∉ pat) : noSpanAt pat A B := by
  intro q1 q2 hsplit h1 h2 hcon
  rcases hcon with ⟨_, hpre⟩
  cases q2 with
  | nil => exact h2 rfl
  | cons d q2' =>
    rcases hpre with ⟨k, hk⟩
    rw [← hk] at hB
    have hd : d = c := by
      have : some d = some c := hB
      exact Option.some.inj this
    apply hc
    rw [hsplit, ← hd]
    exact List.mem_append_right q1 (List.mem_cons_self d q2')

/-- No occurrence can straddle a boundary whose left side ends with a
character that is not in the pattern. -/
theorem noSpanAt_of_getLast (pat A B : List Char) (c : Char)
    (hA : A.getLast? = some c) (hc : c ∉ pat) : noSpanAt pat A B := by
  intro q1 q2 hsplit h1 h2 hcon
  rcases hcon with ⟨hsuf, _⟩
  rcases hsuf with ⟨u, hu⟩
  rw [← hu, List.getLast?_append] at hA
  cases hq : q1.getLast? with
  | none =>
    rw [List.getLast?_eq_none_iff] at hq
    exact h1 hq
  | some d =>
    rw [hq] at hA
    have hd : d = c := by
      have : some d = some c := hA
      exact Option.some.inj this
    apply hc
    rw [hsplit, ← hd]
    exact List.mem_append_left q2 (mem_of_getLastQ hq)

/-- Splitting a text at a spanning-free boundary splits the occurrence
count. -/
theorem countOccs_append (pat A B : List Char) (hpat : pat ≠ [])
    (hns : noSpanAt pat A B) :
    countOccs pat (A ++ B) = countOccs pat A + countOccs pat B := by
  induction A with
  | nil => rw [List.nil_append, countOccs_nil pat hpat, Nat.zero_add]
  | cons a A ih =>
    have hns' : noSpanAt pat A B := by
      intro q1 q2 hq hq1 hq2 hcon
      exact hns q1 q2 hq hq1 hq2 ⟨hcon.1.trans (List.suffix_cons a A), hcon.2⟩
    have hpre : pat.isPrefixOf (a :: (A ++ B)) = pat.isPrefixOf (a :: A) := by
      rw [← List.cons_append]
      cases hp : pat.isPrefixOf (a :: A) with
      | true =>
        exact List.isPrefixOf_iff_prefix.mpr
          ((List.isPrefixOf_iff_prefix.mp hp).trans (List.prefix_append (a :: A) B))
      | false =>
        cases hq : pat.isPrefixOf ((a :: A) ++ B) with
        | false => rfl
        | true =>
          exfalso
          have hfull : pat <+: (a :: A) ++ B := List.isPrefixOf_iff_prefix.mp hq
          by_cases hlen : pat.length ≤ (a :: A).length
          · have heq : pat = List.take pat.length ((a :: A) ++ B) :=
              List.prefix_iff_eq_take.mp hfull
            rw [List.take_append_eq_append_take, Nat.sub_eq_zero_of_le hlen,
              List.take_zero, List.append_nil] at heq
            have hpref : pat <+: (a :: A) := List.prefix_iff_eq_take.mpr heq
            rw [List.isPrefixOf_iff_prefix.mpr hpref] at hp
            cases hp
          · push_neg at hlen
            have heq : pat = List.take pat.length ((a :: A) ++ B) :=
              List.prefix_iff_eq_take.mp hfull
            rw [List.take_append_eq_append_take,
              List.take_of_length_le (Nat.le_of_lt hlen)] at heq
            have hlb : pat.length ≤ (a :: A).length + B.length := by
              have hle := hfull.length_le
              rw [List.length_append] at hle
              exact hle
            have hq2len : (List.take (pat.length - (a :: A).length) B).length =
                pat.length - (a :: A).length := by
              rw [List.length_take]
              exact min_eq_left (by omega)
            have hq2ne : List.take (pat.length - (a :: A).length) B ≠ [] := by
              intro hnil
              have hz : (List.take (pat.length - (a :: A).length) B).length = 0 := by
                rw [hnil]
                rfl
              rw [hq2len] at hz
              omega
            exact hns (a :: A) (List.take (pat.length - (a :: A).length) B) heq
              (by simp) hq2ne ⟨List.suffix_refl _, List.take_prefix _ _⟩
    rw [List.cons_append]
    simp only [countOccs]
    rw [hpre, ih hns']
    omega

/-- Splitting off an occurrence-free segment on the left. -/
theorem countOccs_skip (pat A B : List Char) (hpat : pat ≠ [])
    (hns : noSpanAt pat A B) (hA : countOccs pat A = 0) :
    countOccs pat (A ++ B) = countOccs pat B := by
  rw [countOccs_append pat A B hpat hns, hA, Nat.zero_add]

/-- An occurrence-free whole has occurrence-free infixes. -/
theorem countOccs_zero_of_infix (pat u m v w : List Char) (hpat : pat ≠ [])
    (hw : w = u ++ (m ++ v)) (h0 : countOccs pat w = 0) : countOccs pat m = 0 := by
  have h1 := countOccs_le_append_right pat m v hpat
  have h2 := countOccs_le_append_left pat u (m ++ v) hpat
  rw [← hw] at h2
  omega

/-- Containment survives extending the text on the left. -/
theorem containsSeq_append_left (pat m x : List Char) (h : containsSeq pat m) :
    containsSeq pat (x ++ m) := by
  rcases h with ⟨a, b, rfl⟩
  exact ⟨x ++ a, b, by simp [List.append_assoc]⟩

/-- Containment survives extending the text on the right. -/
theorem containsSeq_append_right (pat m y : List Char) (h : containsSeq pat m) :
    containsSeq pat (m ++ y) := by
  rcases h with ⟨a, b, rfl⟩
  exact ⟨a, b ++ y, by simp [List.append_assoc]⟩

/-- Joining marker-free tokens with a separator that is marker-free and
starts and ends with characters outside the marker yields a marker-free
text. -/
theorem countOccs_joinSep (pat : List Char) (hpat : pat ≠ []) (sep : String)
    (c0 cl : Char) (hh : sep.data.head? = some c0) (hc0 : c0 ∉ pat)
    (hl : sep.data.getLast? = some cl) (hcl : cl ∉ pat)
    (hsep : countOccs pat sep.data = 0) :
    ∀ toks : List String, (∀ x ∈ toks, countOccs pat x.data = 0) →
      countOccs pat (joinSep sep toks).data = 0
  | [], _ => countOccs_nil pat hpat
  | [x], h => h x (List.mem_singleton_self x)
  | x :: y :: xs, h => by
    rw [show joinSep sep (x :: y :: xs) = x ++ sep ++ joinSep sep (y :: xs) from rfl]
    rw [String.data_append, String.data_append, List.append_assoc]
    obtain ⟨s', hs'⟩ : ∃ s', sep.data = c0 :: s' := by
      cases hsd : sep.data with
      | nil => rw [hsd] at hh; cases hh
      | cons c cs =>
        rw [hsd] at hh
        exact ⟨cs, by rw [Option.some.inj hh]⟩
    have h1 : countOccs pat (x.data ++ (sep.data ++ (joinSep sep (y :: xs)).data)) =
        countOccs pat (sep.data ++ (joinSep sep (y :: xs)).data) := by
      refine countOccs_skip pat _ _ hpat ?_ (h x (by simp))
      rw [hs']
      exact noSpanAt_of_head pat _ _ c0 rfl hc0
    have h2 : countOccs pat (sep.data ++ (joinSep sep (y :: xs)).data) =
        countOccs pat (joinSep sep (y :: xs)).data := by
      refine countOccs_skip pat _ _ hpat ?_ hsep
      exact noSpanAt_of_getLast pat _ _ cl hl hcl
    rw [h1, h2]
    exact countOccs_joinSep pat hpat sep c0 cl hh hc0 hl hcl hsep (y :: xs)
      (fun z hz => h z (by simp at hz ⊢; tauto))

/-- The first token of a column entry is an infix of the entry. -/
theorem pySplitTok_infix (c t : String) (h : pySplitTok c = some t) :
    ∃ u v, c.data = u ++ (t.data ++ v) := by
  simp only [pySplitTok] at h
  by_cases he : ((c.data.dropWhile isPySpace).takeWhile (fun ch => !(isPySpace ch))).isEmpty
  · rw [if_pos he] at h
    cases h
  · rw [if_neg he] at h
    refine ⟨c.data.takeWhile isPySpace,
      (c.data.dropWhile isPySpace).dropWhile (fun ch => !(isPySpace ch)), ?_⟩
    rw [← Option.some.inj h]
    rw [show (⟨(c.data.dropWhile isPySpace).takeWhile (fun ch => !(isPySpace ch))⟩ : String).data =
      (c.data.dropWhile isPySpace).takeWhile (fun ch => !(isPySpace ch)) from rfl]
    rw [List.takeWhile_append_dropWhile, List.takeWhile_append_dropWhile]

/-- The token comprehension of `createViewOnExternalTable` succeeds when
every entry has a first token, and every produced token is the first token
of some entry. -/
theorem pyTraverse_tok (cols : List String) (htok : ∀ c ∈ cols, (pySplitTok c).isSome) :
    ∃ toks, pyTraverse (fun column =>
        match pySplitTok column with
        | some tok => Except.ok tok
        | none => Except.error PyErr.indexError) cols = .ok toks ∧
      toks.length = cols.length ∧
      ∀ x ∈ toks, ∃ c ∈ cols, pySplitTok c = some x := by
  induction cols with
  | nil => exact ⟨[], rfl, rfl, by simp⟩
  | cons c cs ih =>
    have hc : (pySplitTok c).isSome := htok c (by simp)
    obtain ⟨t, ht⟩ : ∃ t, pySplitTok c = some t := Option.isSome_iff_exists.mp hc
    obtain ⟨toks, htr, hlen, hmem⟩ := ih (fun d hd => htok d (by simp [hd]))
    refine ⟨t :: toks, ?_, by simp [hlen], ?_⟩
    · simp only [pyTraverse, ht, htr]
    · intro x hx
      rcases List.mem_cons.mp hx with rfl | hx'
      · exact ⟨c, by simp, ht⟩
      · rcases hmem x hx' with ⟨d, hd, hdt⟩
        exact ⟨d, by simp [hd], hdt⟩

/-- Skipping a marker-free segment whose right neighbour is a concrete
piece starting with a character outside the marker. -/
theorem countOccs_skip_before (pat X : List Char) (piece : String) (c : Char) (B : List Char)
    (hpat : pat ≠ []) (hpiece : piece.data.head? = some c) (hc : c ∉ pat)
    (hX : countOccs pat X = 0) :
    countOccs pat (X ++ (piece.data ++ B)) = countOccs pat (piece.data ++ B) := by
  refine countOccs_skip pat X _ hpat ?_ hX
  refine noSpanAt_of_head pat X _ c ?_ hc
  cases hp : piece.data with
  | nil => rw [hp] at hpiece; cases hpiece
  | cons d rest =>
    rw [hp] at hpiece
    exact hpiece


/-- A pattern containing a character that the text lacks never occurs. -/
theorem countOccs_eq_zero_of_not_mem (pat s : List Char) (c : Char)
    (hc : c ∈ pat) (hs : c ∉ s) : countOccs pat s = 0 := by
  induction s with
  | nil =>
    refine countOccs_nil pat ?_
    intro h
    rw [h] at hc
    simp at hc
  | cons d rest ih =>
    simp only [countOccs]
    have hind : pat.isPrefixOf (d :: rest) = false := by
      cases hp : pat.isPrefixOf (d :: rest) with
      | false => rfl
      | true =>
        exfalso
        exact hs ((List.isPrefixOf_iff_prefix.mp hp).subset hc)
    rw [hind]
    simp only [Bool.false_eq_true, if_false, Nat.zero_add]
    exact ih (fun h => hs (List.mem_cons_of_mem d h))

/-- A `spanFreeLeft` left side admits no spanning occurrence, whatever
text follows. -/
theorem noSpanAt_of_spanFreeLeft (pat A B : List Char) (h : spanFreeLeft pat A = true) :
    noSpanAt pat A B := by
  intro q1 q2 hsplit h1 h2 hcon
  have hq1 : q1 = pat.take q1.length := by
    rw [hsplit, List.take_left]
  have hlen2 : 1 ≤ q2.length := by
    cases q2 with
    | nil => exact absurd rfl h2
    | cons _ _ => simp
  have hlt : q1.length < pat.length := by
    have hsum : pat.length = q1.length + q2.length := by rw [hsplit, List.length_append]
    omega
  have hall := (List.all_eq_true.mp h) q1.length (List.mem_range.mpr hlt)
  rw [Bool.or_eq_true] at hall
  rcases hall with h0 | hns
  · exact h1 (List.length_eq_zero.mp (eq_of_beq h0))
  · rw [← hq1] at hns
    simp only [Bool.not_eq_true'] at hns
    have htrue := List.isSuffixOf_iff_suffix.mpr hcon.1
    rw [hns] at htrue
    cases htrue

/-- A boundary whose right side starts with two characters excluded by
`spanFreeRight2` admits no spanning occurrence, whatever text precedes. -/
theorem noSpanAt_of_spanFreeRight2 (pat : List Char) (c1 c2 : Char) (A B : List Char)
    (h : spanFreeRight2 pat c1 c2 = true) : noSpanAt pat A (c1 :: c2 :: B) := by
  intro q1 q2 hsplit h1 h2 hcon
  rcases hcon with ⟨_, hpre⟩
  have hq2 : q2 = pat.drop q1.length := by rw [hsplit, List.drop_left]
  have hlen2 : 1 ≤ q2.length := by
    cases q2 with
    | nil => exact absurd rfl h2
    | cons _ _ => simp
  have hlt : q1.length < pat.length := by
    have hsum : pat.length = q1.length + q2.length := by rw [hsplit, List.length_append]
    omega
  have hall := (List.all_eq_true.mp h) q1.length (List.mem_range.mpr hlt)
  rw [Bool.or_eq_true] at hall
  rcases hall with h0 | hmatch
  · exact h1 (List.length_eq_zero.mp (eq_of_beq h0))
  · rw [← hq2] at hmatch
    cases q2 with
    | nil => exact h2 rfl
    | cons d q2' =>
      rw [List.cons_prefix_cons] at hpre
      rcases hpre with ⟨rfl, hpre2⟩
      cases q2' with
      | nil => simp at hmatch
      | cons e rest =>
        rw [List.cons_prefix_cons] at hpre2
        rcases hpre2 with ⟨rfl, _⟩
        simp at hmatch

/-- Skipping an occurrence-free segment whose concrete right neighbour
starts with two characters excluded by `spanFreeRight2`. -/
theorem countOccs_skip_before2 (pat X : List Char) (piece : String) (c1 c2 : Char) (B : List Char)
    (hpat : pat ≠ []) (hpiece : ∃ r, piece.data = c1 :: c2 :: r)
    (hfree : spanFreeRight2 pat c1 c2 = true)
    (hX : countOccs pat X = 0) :
    countOccs pat (X ++ (piece.data ++ B)) = countOccs pat (piece.data ++ B) := by
  rcases hpiece with ⟨r, hr⟩
  refine countOccs_skip pat X _ hpat ?_ hX
  rw [hr, List.cons_append, List.cons_append]
  exact noSpanAt_of_spanFreeRight2 pat c1 c2 X _ hfree

/-- Skipping a concrete occurrence-free, `spanFreeLeft` piece. -/
theorem countOccs_skip_left_free (pat : List Char) (piece : String) (B : List Char)
    (hpat : pat ≠ []) (hfree : spanFreeLeft pat piece.data = true)
    (hzero : countOccs pat piece.data = 0) :
    countOccs pat (piece.data ++ B) = countOccs pat B :=
  countOccs_skip pat piece.data B hpat (noSpanAt_of_spanFreeLeft pat piece.data B hfree) hzero

/-- Splitting the count at a concrete `spanFreeLeft` piece. -/
theorem countOccs_append_left_free (pat : List Char) (piece : String) (B : List Char)
    (hpat : pat ≠ []) (hfree : spanFreeLeft pat piece.data = true) :
    countOccs pat (piece.data ++ B) = countOccs pat piece.data + countOccs pat B :=
  countOccs_append pat piece.data B hpat (noSpanAt_of_spanFreeLeft pat piece.data B hfree)

/-- A first token contains no space character: `split()` tokens are
whitespace-free runs. -/
theorem pySplitTok_no_space (c t : String) (h : pySplitTok c = some t) : ' ' ∉ t.data := by
  simp only [pySplitTok] at h
  by_cases he : ((c.data.dropWhile isPySpace).takeWhile (fun ch => !(isPySpace ch))).isEmpty
  · rw [if_pos he] at h
    cases h
  · rw [if_neg he] at h
    intro hmem
    have ht : t.data = (c.data.dropWhile isPySpace).takeWhile (fun ch => !(isPySpace ch)) := by
      rw [← Option.some.inj h]
    rw [ht] at hmem
    have hp := List.mem_takeWhile_imp hmem
    simp [isPySpace] at hp

/-- The rendered view text contains the full ranking clause exactly once,
for any schema and table names that do not contain it and any tokens that
do not contain it. -/
theorem countOccs_rc_view (s t : String) (toks : List String)
    (hs : countOccs rankClause.data s.data = 0) (ht : countOccs rankClause.data t.data = 0)
    (htoks : ∀ x ∈ toks, countOccs rankClause.data x.data = 0) :
    countOccs rankClause.data (viewQueryText s t toks).data = 1 := by
  have hpat : rankClause.data ≠ [] := by decide
  have hC1 : countOccs rankClause.data (joinSep ",\n\t\t" toks).data = 0 :=
    countOccs_joinSep rankClause.data hpat ",\n\t\t" ',' '\t' rfl (by decide) (by decide)
      (by decide) (by decide) toks htoks
  have hC2 : countOccs rankClause.data (joinSep ",\n\t\t\t\t" toks).data = 0 :=
    countOccs_joinSep rankClause.data hpat ",\n\t\t\t\t" ',' '\t' rfl (by decide) (by decide)
      (by decide) (by decide) toks htoks
  unfold viewQueryText
  simp only [String.data_append, List.append_assoc]
  rw [countOccs_skip_left_free rankClause.data "\nCREATE VIEW " _ hpat (by decide) (by decide)]
  rw [countOccs_skip_before rankClause.data s.data "." '.' _ hpat rfl (by decide) hs]
  rw [countOccs_skip_left_free rankClause.data "." _ hpat (by decide) (by decide)]
  rw [countOccs_skip_before2 rankClause.data t.data " \nAS\nSELECT \n\t\t" ' ' '\n' _ hpat
    ⟨"AS\nSELECT \n\t\t".data, rfl⟩ (by decide) ht]
  rw [countOccs_skip_left_free rankClause.data " \nAS\nSELECT \n\t\t" _ hpat (by decide) (by decide)]
  rw [countOccs_skip_before2 rankClause.data (joinSep ",\n\t\t" toks).data
    " \n  FROM \n    (\n        SELECT  " ' ' '\n' _ hpat
    ⟨"  FROM \n    (\n        SELECT  ".data, rfl⟩ (by decide) hC1]
  rw [countOccs_skip_left_free rankClause.data " \n  FROM \n    (\n        SELECT  " _ hpat
    (by decide) (by decide)]
  rw [countOccs_skip_before rankClause.data (joinSep ",\n\t\t\t\t" toks).data
    ",\n\t\t\t\tROW_NUMBER() OVER (PARTITION BY Id ORDER BY versionnumber DESC) as _row_id\n          FROM "
    ',' _ hpat rfl (by decide) hC2]
  rw [countOccs_append_left_free rankClause.data
    ",\n\t\t\t\tROW_NUMBER() OVER (PARTITION BY Id ORDER BY versionnumber DESC) as _row_id\n          FROM "
    _ hpat (by decide)]
  rw [countOccs_skip_before rankClause.data s.data ".[" '.' _ hpat rfl (by decide) hs]
  rw [countOccs_skip_left_free rankClause.data ".[" _ hpat (by decide) (by decide)]
  rw [countOccs_skip rankClause.data t.data
    "_raw]\n    ) AS A\n WHERE A._row_id = 1\n   AND A.IsDelete IS NULL\n\nGO\n".data hpat
    (noSpanAt_of_spanFreeRight2 rankClause.data '_' 'r' t.data
      "aw]\n    ) AS A\n WHERE A._row_id = 1\n   AND A.IsDelete IS NULL\n\nGO\n".data (by decide))
    ht]
  rw [show countOccs rankClause.data
    (",\n\t\t\t\tROW_NUMBER() OVER (PARTITION BY Id ORDER BY versionnumber DESC) as _row_id\n          FROM ".data) = 1
    from by decide]
  rw [show countOccs rankClause.data
    ("_raw]\n    ) AS A\n WHERE A._row_id = 1\n   AND A.IsDelete IS NULL\n\nGO\n".data) = 0
    from by decide]

set_option maxRecDepth 4000 in
/-- Claim C8, counterexample.  Two failures of the claim as stated: for
the non-empty column list [""] the renderer raises IndexError, so no view
text exists (`column.split()[0]` on a whitespace-only entry); and for a
table name that itself contains the ranking-clause text the rendered view
contains three ranking clauses, not one, because the table name is
interpolated twice into the template. -/
theorem view_render_original_claim_refuted :
    createViewOnExternalTable "account" [""] = .error .indexError ∧
    ∃ text, createViewOnExternalTable rankClause ["Id VARCHAR(50)"] = .ok text ∧
      countOccs rankClause.data text.data = 3 :=
  ⟨rfl, ⟨viewQueryText "d365" rankClause ["Id"], rfl, by decide⟩⟩

/-- Claim C8, amended.  For every schema name and table name that do not
themselves contain the ranking-clause text, and every non-empty column
list whose entries each contain a non-whitespace character (so a first
token exists), rendering succeeds and the view text contains exactly one
window-ranking clause, partitioned by Id and ordered by versionnumber
descending, keeps rank 1 (the `WHERE A._row_id = 1` filter), and requires
the delete flag to be null (`AND A.IsDelete IS NULL`). -/
theorem view_render_single_ranking_clause
    (schemaName tableName : String) (cols : List String)
    (hne : cols ≠ [])
    (htok : ∀ c ∈ cols, (pySplitTok c).isSome)
    (hsch : countOccs rankClause.data schemaName.data = 0)
    (htab : countOccs rankClause.data tableName.data = 0) :
    ∃ text, createViewOnExternalTable tableName cols schemaName = .ok text ∧
      countOccs rankClause.data text.data = 1 ∧
      containsSeq " WHERE A._row_id = 1".data text.data ∧
      containsSeq "AND A.IsDelete IS NULL".data text.data := by
  obtain ⟨toks, htr, hlen, hmem⟩ := pyTraverse_tok cols htok
  have hne' : toks.isEmpty = false := by
    cases toks with
    | nil =>
      exfalso
      exact hne (List.length_eq_zero.mp hlen.symm)
    | cons _ _ => rfl
  have htokzero : ∀ x ∈ toks, countOccs rankClause.data x.data = 0 := by
    intro x hx
    rcases hmem x hx with ⟨c, hc, hct⟩
    exact countOccs_eq_zero_of_not_mem rankClause.data x.data ' ' (by decide)
      (pySplitTok_no_space c x hct)
  refine ⟨viewQueryText schemaName tableName toks, ?_, ?_, ?_, ?_⟩
  · simp [createViewOnExternalTable, htr, hne']
  · exact countOccs_rc_view schemaName tableName toks hsch htab htokzero
  · unfold viewQueryText
    simp only [String.data_append, List.append_assoc]
    apply containsSeq_append_left
    apply containsSeq_append_left
    apply containsSeq_append_left
    apply containsSeq_append_left
    apply containsSeq_append_left
    apply containsSeq_append_left
    apply containsSeq_append_left
    apply containsSeq_append_left
    apply containsSeq_append_left
    apply containsSeq_append_left
    apply containsSeq_append_left
    apply containsSeq_append_left
    exact ⟨"_raw]\n    ) AS A\n".data, "\n   AND A.IsDelete IS NULL\n\nGO\n".data, by decide⟩
  · unfold viewQueryText
    simp only [String.data_append, List.append_assoc]
    apply containsSeq_append_left
    apply containsSeq_append_left
    apply containsSeq_append_left
    apply containsSeq_append_left
    apply containsSeq_append_left
    apply containsSeq_append_left
    apply containsSeq_append_left
    apply containsSeq_append_left
    apply containsSeq_append_left
    apply containsSeq_append_left
    apply containsSeq_append_left
    apply containsSeq_append_left
    exact ⟨"_raw]\n    ) AS A\n WHERE A._row_id = 1\n   ".data, "\n\nGO\n".data, by decide⟩

/-- Witness for the amended claim C8 at a concrete table and column list. -/
theorem view_render_single_ranking_clause_witness :
    ∃ text, createViewOnExternalTable "account" ["Id VARCHAR(50)", "name NVARCHAR(100)"] "d365" =
        .ok text ∧
      countOccs rankClause.data text.data = 1 ∧
      containsSeq " WHERE A._row_id = 1".data text.data ∧
      containsSeq "AND A.IsDelete IS NULL".data text.data :=
  view_render_single_ranking_clause "d365" "account" ["Id VARCHAR(50)", "name NVARCHAR(100)"]
    (by decide) (by decide) (by decide) (by decide)
